import Mathlib

/-!
Shallow embedding of the AccessWeb complaint-management core
(assets/js/create-complaint.js, track-complaints.js, accessibility.js).

Timestamps are modelled as integers: milliseconds since the Unix epoch, the
value JavaScript exposes through Date arithmetic.  The calendar-day addition
performed by deadline.setDate(deadline.getDate() + n) shifts the instant by
exactly n * 86400000 ms in a timezone without offset changes, so adding days
is modelled as integer addition of n * msPerDay.  ISO strings stored in the
records are serializations of these instants.
-/

namespace AccessWeb

/-- Milliseconds in one day: the 1000 * 60 * 60 * 24 constant of the source. -/
def msPerDay : Int := 1000 * 60 * 60 * 24

/-- Calendar-day addition used for deadlines:
deadline.setDate(deadline.getDate() + n). -/
def addDays (t : Int) (n : Int) : Int := t + n * msPerDay

/-- Organization record (accessibility.js saveOrganization / defaults).  The
source spells the window fields responseTimedays / escalationTimedays. -/
structure Organization where
  id : String
  name : String
  otype : String
  contactEmail : String
  responseTimedays : Int
  escalationTimedays : Int
deriving DecidableEq, Repr

/-- Contact details sub-record of a complaint (create-complaint.js
handleFormSubmission). -/
structure ContactDetails where
  fullName : String
  email : String
  phone : String
  address : String
  preferredContact : String
deriving DecidableEq, Repr

/-- Partial complaint fields, the updates argument of
ComplaintManager.updateComplaint, merged by Object.assign.  A field that is
present overwrites the stored one; deadline itself is optional on the record,
hence the nested Option.  (Keys the record does not have, and assignment to
the updates log itself, are not needed by any claim and are not modelled.) -/
structure PartialComplaint where
  status : Option String
  deadline : Option (Option Int)
  title : Option String
deriving DecidableEq, Repr

/-- One entry of the append-only updates log:
{ date, type: "status_change", details }. -/
structure UpdateEntry where
  date : Int
  etype : String
  details : PartialComplaint
deriving DecidableEq, Repr

/-- Complaint record as built by ComplaintManager.createComplaint. -/
structure Complaint where
  id : String
  organizationId : String
  title : String
  description : String
  desiredOutcome : String
  contactDetails : ContactDetails
  incidentDate : Option String
  referenceNumber : String
  previousContact : String
  createdDate : Int
  status : String
  updates : List UpdateEntry
  deadline : Option Int
deriving DecidableEq, Repr

/-- The store: the two persisted collections owned by
ComplaintManager / AdminManager. -/
structure ManagerState where
  complaints : List Complaint
  organizations : List Organization
deriving DecidableEq, Repr

/-- Creation input assembled by the form (handleFormSubmission).  The object
is spread into the literal { id: this.generateId(), ...complaintData, ... },
so a caller-supplied id member overrides the generated one; the form data of
the repository itself carries no id member, so its id field is none. -/
structure CreateInput where
  id : Option String
  organizationId : String
  title : String
  description : String
  desiredOutcome : String
  contactDetails : ContactDetails
  incidentDate : Option String
  referenceNumber : String
  previousContact : String
deriving DecidableEq, Repr

/-- ComplaintManager.createComplaint.  genId stands for the value
this.generateId() returns at this call; now is the current instant, giving
both createdDate (new Date().toISOString()) and the base of the deadline
computation (new Date()).  The object literal places id before the spread of
complaintData and createdDate, status, updates after it; the deadline is then
added only when the organization id resolves. -/
def createComplaint (mgr : ManagerState) (genId : String) (now : Int)
    (input : CreateInput) : Complaint × ManagerState :=
  let base : Complaint :=
    { id := input.id.getD genId
      organizationId := input.organizationId
      title := input.title
      description := input.description
      desiredOutcome := input.desiredOutcome
      contactDetails := input.contactDetails
      incidentDate := input.incidentDate
      referenceNumber := input.referenceNumber
      previousContact := input.previousContact
      createdDate := now
      status := "submitted"
      updates := []
      deadline := none }
  let complaint :=
    match mgr.organizations.find? (fun org => org.id == input.organizationId) with
    | some org => { base with deadline := some (addDays now org.responseTimedays) }
    | none => base
  (complaint, { mgr with complaints := mgr.complaints ++ [complaint] })

end AccessWeb

namespace AccessWeb

/-- Object.assign(complaint, updates): shallow overwrite of the present
fields. -/
def applyAssign (c : Complaint) (p : PartialComplaint) : Complaint :=
  { c with
    status := p.status.getD c.status
    deadline := p.deadline.getD c.deadline
    title := p.title.getD c.title }

/-- Mutation of the first complaint whose id matches, as
this.complaints.find(...) followed by in-place assignment and
complaint.updates.push({date: now, type: "status_change", details: updates});
none when no record matches. -/
def updateFirst (p : PartialComplaint) (now : Int) (cid : String) :
    List Complaint → Option (List Complaint)
  | [] => none
  | c :: rest =>
    if c.id == cid then
      let c1 := applyAssign c p
      some ({ c1 with updates := c1.updates ++ [⟨now, "status_change", p⟩] } :: rest)
    else
      match updateFirst p now cid rest with
      | none => none
      | some rest1 => some (c :: rest1)

/-- ComplaintManager.updateComplaint: false (NotFound) when the id is absent,
otherwise merge, log and persist. -/
def updateComplaint (mgr : ManagerState) (now : Int) (cid : String)
    (p : PartialComplaint) : Bool × ManagerState :=
  match updateFirst p now cid mgr.complaints with
  | none => (false, mgr)
  | some cs => (true, { mgr with complaints := cs })

/-- ComplaintManager.deleteComplaint: findIndex then splice(index, 1). -/
def deleteComplaint (mgr : ManagerState) (cid : String) : Bool × ManagerState :=
  let i := mgr.complaints.findIdx (fun c => c.id == cid)
  if i < mgr.complaints.length then
    (true, { mgr with complaints := mgr.complaints.eraseIdx i })
  else
    (false, mgr)

/-- ComplaintTracker.isComplaintOverdue: false when no deadline is stored,
otherwise new Date() > new Date(complaint.deadline). -/
def isComplaintOverdue (now : Int) (c : Complaint) : Bool :=
  match c.deadline with
  | none => false
  | some d => now > d

/-- Status-priority table of ComplaintTracker.renderComplaints;
statusPriority[status] || 0 yields 0 for any unlisted status. -/
def statusPriority (s : String) : Int :=
  if s = "escalation" then 6
  else if s = "response-due" then 5
  else if s = "in-progress" then 4
  else if s = "acknowledged" then 3
  else if s = "submitted" then 2
  else if s = "resolved" then 1
  else 0

/-- Comparator passed to Array.prototype.sort in
ComplaintTracker.renderComplaints. -/
def compareComplaints (now : Int) (a b : Complaint) : Int :=
  let aOverdue := isComplaintOverdue now a
  let bOverdue := isComplaintOverdue now b
  if aOverdue && !bOverdue then -1
  else if !aOverdue && bOverdue then 1
  else
    let aPriority := statusPriority a.status
    let bPriority := statusPriority b.status
    if aPriority ≠ bPriority then bPriority - aPriority
    else b.createdDate - a.createdDate

/-- Display ordering of the tracker: a stable sort consistent with the
comparator (ECMAScript sort is stable and, for a consistent comparator,
produces a sequence on which the comparator is never positive left of
right). -/
def sortForDisplay (now : Int) (l : List Complaint) : List Complaint :=
  l.mergeSort (fun a b => compareComplaints now a b ≤ 0)

/-- ComplaintTracker.calculateDaysElapsed:
Math.ceil(Math.abs(now - created) / (1000 * 60 * 60 * 24)); the real-valued
ceiling of n / d at a natural numerator is the integer (n + d - 1) / d. -/
def calculateDaysElapsed (now : Int) (created : Int) : Nat :=
  let diffTime := (now - created).natAbs
  (diffTime + (1000 * 60 * 60 * 24) - 1) / (1000 * 60 * 60 * 24)

/-- ComplaintTracker.calculateProgress status table; || 0 for unknown. -/
def calculateProgress (s : String) : Int :=
  if s = "submitted" then 20
  else if s = "acknowledged" then 40
  else if s = "in-progress" then 60
  else if s = "response-due" then 80
  else if s = "escalation" then 90
  else if s = "resolved" then 100
  else 0

end AccessWeb

namespace AccessWeb

/-- Result of AdminManager.saveOrganization: errors surface through
showFormError(fieldId, message) and the function returns before touching the
collection, so the pair carries the error (when any) and the collection the
store holds afterwards. -/
def saveOrganization (orgs : List Organization) (data : Organization) :
    Option (String × String) × List Organization :=
  if data.escalationTimedays ≤ data.responseTimedays then
    (some ("org-escalation-time",
      "Escalation time must be greater than response time"), orgs)
  else
    match orgs.find? (fun o =>
        o.name.toLower == data.name.toLower && o.id != data.id) with
    | some _ =>
      (some ("org-name", "An organization with this name already exists"), orgs)
    | none =>
      let existingIndex := orgs.findIdx (fun o => o.id == data.id)
      if existingIndex < orgs.length then
        (none, orgs.set existingIndex data)
      else
        (none, orgs ++ [data])

/-- Member of an import document.  A member is either absent (undefined,
falsy) or an array.  A present non-array member is not modelled: the admin
importer rejects it exactly as it rejects an absent one, and the dashboard
importer would store the raw value, which has no typed counterpart; no claim
needs that case. -/
inductive Member (α : Type) where
  | absent : Member α
  | arr : List α → Member α
deriving DecidableEq, Repr

/-- Import/export document: the complaints and organizations members of the
serialized object (exportDate, version and systemSettings carry no record
data and are ignored by the importers). -/
structure ImportDoc where
  complaints : Member Complaint
  organizations : Member Organization
deriving DecidableEq, Repr

/-- AdminManager.exportData: both collections are serialized as arrays. -/
def adminExportData (mgr : ManagerState) : ImportDoc :=
  { complaints := .arr mgr.complaints, organizations := .arr mgr.organizations }

/-- Organization half of AdminManager.performImport: each incoming
organization is skipped when a case-insensitive name match already exists in
the (growing) collection and otherwise appended under a fresh id.  genO n is
the id this.generateOrgId() returns at its n-th call. -/
def importOrgs (existing : List Organization) (incoming : List Organization)
    (genO : Nat → String) (n : Nat) : List Organization :=
  match incoming with
  | [] => existing
  | o :: rest =>
    if existing.any (fun e => e.name.toLower == o.name.toLower) then
      importOrgs existing rest genO n
    else
      importOrgs (existing ++ [{ o with id := genO n }]) rest genO (n + 1)

/-- AdminManager.performImport: merge organizations by name, append every
incoming complaint under a fresh id (genC i for the i-th). -/
def performImport (mgr : ManagerState) (cs : List Complaint)
    (os : List Organization) (genO genC : Nat → String) : ManagerState :=
  { complaints := mgr.complaints ++ cs.mapIdx (fun i c => { c with id := genC i })
    organizations := importOrgs mgr.organizations os genO 0 }

/-- AdminManager.importData on an already-parsed document, with the
confirmation dialog answered yes: both members must be arrays, otherwise
throw new Error("Invalid data format") fires before any mutation and the
collections are left as they were. -/
def adminImportData (mgr : ManagerState) (doc : ImportDoc)
    (genO genC : Nat → String) : Bool × ManagerState :=
  match doc.complaints, doc.organizations with
  | .arr cs, .arr os => (true, performImport mgr cs os genO genC)
  | _, _ => (false, mgr)

/-- ComplaintManager.importData (create-complaint.js) on an already-parsed
document: no shape validation.  Each member that is present (truthy; an
array, even empty, is truthy) replaces the corresponding collection
wholesale; an absent member leaves its collection alone; true is returned in
every such case. -/
def cmImportData (mgr : ManagerState) (doc : ImportDoc) : Bool × ManagerState :=
  let mgr1 :=
    match doc.complaints with
    | .arr cs => { mgr with complaints := cs }
    | .absent => mgr
  let mgr2 :=
    match doc.organizations with
    | .arr os => { mgr1 with organizations := os }
    | .absent => mgr1
  (true, mgr2)

/-- Comparator of renderComplaints over its six inputs: the overdue flags,
the status priorities and the creation instants of the two complaints.
compareComplaints now a b unfolds to this value. -/
def cmpVal (oa ob : Bool) (pa pb da db : Int) : Int :=
  if oa && !ob then -1
  else if !oa && ob then 1
  else if pa ≠ pb then pb - pa
  else db - da

/-- Display order stated by the spec: overdue strictly before non-overdue;
with equal overdue flags, status priority descending; with equal flags and
priorities, createdDate descending (newest first). -/
def displayOrdered (now : Int) (a b : Complaint) : Prop :=
  (isComplaintOverdue now a = true ∧ isComplaintOverdue now b = false) ∨
  (isComplaintOverdue now a = isComplaintOverdue now b ∧
    (statusPriority b.status < statusPriority a.status ∨
      (statusPriority a.status = statusPriority b.status ∧
        b.createdDate ≤ a.createdDate)))

/-- Content fields of an organization: everything except the id. -/
def orgContent (o : Organization) :
    String × String × String × Int × Int :=
  (o.name, o.otype, o.contactEmail, o.responseTimedays, o.escalationTimedays)

/-- Content fields of a complaint: everything except the id. -/
def complaintContent (c : Complaint) :=
  (c.organizationId, c.title, c.description, c.desiredOutcome,
   c.contactDetails, c.incidentDate, c.referenceNumber, c.previousContact,
   c.createdDate, c.status, c.updates, c.deadline)

/-- Sample organization: the TechMart default of the source
(responseTimedays 30, escalationTimedays 60). -/
def orgA : Organization :=
  ⟨"techmart", "TechMart Electronics", "Retailer",
   "complaints@techmart.co.uk", 30, 60⟩

/-- Sample organization with a different name, for import examples. -/
def orgB : Organization :=
  ⟨"quickfix", "QuickFix Plumbing Services", "Service Provider",
   "support@quickfixplumbing.co.uk", 14, 28⟩

/-- Organization whose name equals the name of orgA but whose id differs. -/
def orgDup : Organization :=
  ⟨"org_other", "TechMart Electronics", "Retailer", "dup@example.com", 10, 20⟩

/-- Edit of orgA that keeps its id and name and changes another field. -/
def orgEdit : Organization := { orgA with contactEmail := "new@techmart.co.uk" }

/-- Organization input violating the time-ordering constraint
(escalationTimedays equal to responseTimedays). -/
def orgBadTimes : Organization :=
  ⟨"org_bad", "Bad Times Ltd", "Retailer", "bad@example.com", 30, 30⟩

/-- Sample contact details. -/
def cdA : ContactDetails := ⟨"Ada Smith", "ada@example.com", "", "", "email"⟩

/-- Sample creation input against orgA, carrying no id member. -/
def inputA : CreateInput :=
  ⟨none, "techmart", "Broken lift", "The lift at the station is broken",
   "Repair the lift", cdA, none, "", ""⟩

/-- Creation input whose organization id resolves to nothing. -/
def inputUnknownOrg : CreateInput := { inputA with organizationId := "no-such-org" }

/-- Creation input that smuggles an id member, as a spread-in object key. -/
def inputWithId : CreateInput := { inputA with id := some "caller-id" }

/-- Sample stored complaint: created 2024-01-01T00:00:00Z against orgA, hence
deadline 2024-01-31T00:00:00Z. -/
def compA : Complaint :=
  ⟨"cmp_1", "techmart", "Broken lift", "The lift at the station is broken",
   "Repair the lift", cdA, none, "", "", 1704067200000, "submitted", [],
   some 1706659200000⟩

/-- Store holding only organizations. -/
def mgrA : ManagerState := ⟨[], [orgA]⟩

/-- Store holding one complaint and one organization. -/
def mgrB : ManagerState := ⟨[compA], [orgA]⟩

end AccessWeb

namespace AccessWeb

/-- Absence of a matching id makes updateFirst return none without building a
new list. -/
lemma updateFirst_eq_none {p : PartialComplaint} {now : Int} {cid : String}
    {l : List Complaint} (h : ∀ c ∈ l, c.id ≠ cid) :
    updateFirst p now cid l = none := by
  induction l with
  | nil => rfl
  | cons c rest ih =>
    have hc : (c.id == cid) = false := by
      simpa using h c (List.mem_cons_self c rest)
    simp only [updateFirst, hc, Bool.false_eq_true, if_false]
    rw [ih fun d hd => h d (List.mem_cons_of_mem c hd)]

/-- C1: a complaint created through createComplaint carries
createdDate = now, and its deadline is createdDate plus the resolved
organization response window in calendar days when the organization id
resolves, and is unset when it does not. -/
theorem createComplaint_deadline (mgr : ManagerState) (genId : String)
    (now : Int) (input : CreateInput) :
    (createComplaint mgr genId now input).1.createdDate = now ∧
    (∀ org,
      mgr.organizations.find? (fun o => o.id == input.organizationId) = some org →
      (createComplaint mgr genId now input).1.deadline =
        some (addDays now org.responseTimedays)) ∧
    (mgr.organizations.find? (fun o => o.id == input.organizationId) = none →
      (createComplaint mgr genId now input).1.deadline = none) := by
  refine ⟨?_, ?_, ?_⟩
  · unfold createComplaint
    cases h : mgr.organizations.find? (fun o => o.id == input.organizationId) <;>
      simp [h]
  · intro org h
    unfold createComplaint
    simp [h]
  · intro h
    unfold createComplaint
    simp [h]

/-- Witness for C1 at the example of the spec: organization with
responseTimedays 30, creation at 2024-01-01T00:00:00Z, deadline
2024-01-31T00:00:00Z; and a non-resolving organization id leaves the deadline
unset. -/
theorem createComplaint_deadline_witness :
    (createComplaint mgrA "complaint_1" 1704067200000 inputA).1.deadline =
      some 1706659200000 ∧
    (createComplaint mgrA "complaint_2" 1704067200000 inputUnknownOrg).1.deadline =
      none := by
  constructor
  · have h :=
      (createComplaint_deadline mgrA "complaint_1" 1704067200000 inputA).2.1
        orgA (by rfl)
    rw [h]
    norm_num [addDays, msPerDay, orgA]
  · exact
      (createComplaint_deadline mgrA "complaint_2" 1704067200000
        inputUnknownOrg).2.2 (by rfl)

/-- C10 (amended): for a creation input without an id member the returned
complaint carries the generated id, createdDate = now, status submitted and
an empty updates log, and it is appended to the complaint collection; a
caller-supplied id member would override the generated id because the object
spread follows the id key. -/
theorem createComplaint_populates (mgr : ManagerState) (genId : String)
    (now : Int) (input : CreateInput) (h : input.id = none) :
    (createComplaint mgr genId now input).1.id = genId ∧
    (createComplaint mgr genId now input).1.createdDate = now ∧
    (createComplaint mgr genId now input).1.status = "submitted" ∧
    (createComplaint mgr genId now input).1.updates = [] ∧
    (createComplaint mgr genId now input).2.complaints =
      mgr.complaints ++ [(createComplaint mgr genId now input).1] ∧
    (createComplaint mgr genId now input).2.organizations = mgr.organizations := by
  unfold createComplaint
  cases hf : mgr.organizations.find? (fun o => o.id == input.organizationId) <;>
    simp [h, hf]

/-- Witness for C10 (amended) on a concrete input without an id member. -/
theorem createComplaint_populates_witness :
    (createComplaint mgrA "complaint_7" 1704067200000 inputA).1.id =
      "complaint_7" ∧
    (createComplaint mgrA "complaint_7" 1704067200000 inputA).1.createdDate =
      1704067200000 ∧
    (createComplaint mgrA "complaint_7" 1704067200000 inputA).1.status =
      "submitted" ∧
    (createComplaint mgrA "complaint_7" 1704067200000 inputA).1.updates = [] ∧
    (createComplaint mgrA "complaint_7" 1704067200000 inputA).2.complaints =
      mgrA.complaints ++
        [(createComplaint mgrA "complaint_7" 1704067200000 inputA).1] ∧
    (createComplaint mgrA "complaint_7" 1704067200000 inputA).2.organizations =
      mgrA.organizations :=
  createComplaint_populates mgrA "complaint_7" 1704067200000 inputA rfl

/-- C10 counterexample: an input that smuggles an id member yields a
complaint whose id is the caller-supplied value, not the freshly generated
one, because the spread of complaintData follows the generated id key. -/
theorem createComplaint_id_counterexample :
    (createComplaint mgrA "fresh_generated_id" 1704067200000 inputWithId).1.id =
      "caller-id" ∧
    "caller-id" ≠ "fresh_generated_id" := by
  refine ⟨rfl, by decide⟩

/-- C6: updateComplaint on an id absent from the complaint collection
returns false (NotFound) and leaves the store, in particular the complaint
collection, unchanged. -/
theorem updateComplaint_notFound (mgr : ManagerState) (now : Int)
    (cid : String) (p : PartialComplaint)
    (h : ∀ c ∈ mgr.complaints, c.id ≠ cid) :
    updateComplaint mgr now cid p = (false, mgr) := by
  unfold updateComplaint
  rw [updateFirst_eq_none h]

/-- Witness for C6: marking an unknown id as resolved fails and leaves the
singleton collection intact. -/
theorem updateComplaint_notFound_witness :
    updateComplaint mgrB 1706745600000 "no-such-complaint"
      ⟨some "resolved", none, none⟩ = (false, mgrB) :=
  updateComplaint_notFound mgrB 1706745600000 "no-such-complaint"
    ⟨some "resolved", none, none⟩ (by decide)

/-- C7: an organization input whose escalationTimedays is not strictly
greater than its responseTimedays is rejected with the structured form error
naming the org-escalation-time field, and the collection is returned
unchanged. -/
theorem saveOrganization_escalation (orgs : List Organization)
    (data : Organization) (h : data.escalationTimedays ≤ data.responseTimedays) :
    saveOrganization orgs data =
      (some ("org-escalation-time",
        "Escalation time must be greater than response time"), orgs) := by
  unfold saveOrganization
  rw [if_pos h]

/-- Witness for C7 at a concrete input with equal response and escalation
windows. -/
theorem saveOrganization_escalation_witness :
    saveOrganization [orgA] orgBadTimes =
      (some ("org-escalation-time",
        "Escalation time must be greater than response time"), [orgA]) :=
  saveOrganization_escalation [orgA] orgBadTimes (by decide)

/-- Merging partial fields without a deadline key preserves every id and
deadline in the collection. -/
lemma updateFirst_preserves_deadline {p : PartialComplaint} {now : Int}
    {cid : String} (hp : p.deadline = none) :
    ∀ {l l' : List Complaint}, updateFirst p now cid l = some l' →
      l'.map (fun c => (c.id, c.deadline)) =
        l.map (fun c => (c.id, c.deadline)) := by
  intro l
  induction l with
  | nil => intro l' h; simp [updateFirst] at h
  | cons c rest ih =>
    intro l' h
    by_cases hc : (c.id == cid) = true
    · simp only [updateFirst, hc, if_true] at h
      cases h
      simp [applyAssign, hp]
    · simp only [updateFirst, hc, Bool.false_eq_true, if_false] at h
      cases hrest : updateFirst p now cid rest with
      | none => rw [hrest] at h; cases h
      | some rest1 =>
        rw [hrest] at h
        cases h
        simp [ih hrest]

/-- C2 (amended): a partialFields argument without a deadline key leaves
every stored id and deadline unchanged under update_complaint; creation only
appends one new record after the existing ones; deletion only removes
records (sublist), never rewriting a surviving one.  A partialFields
argument that does carry a deadline key overwrites the stored deadline,
because Object.assign merges every supplied key. -/
theorem deadline_immutable_amended (mgr : ManagerState) :
    (∀ (now : Int) (cid : String) (p : PartialComplaint), p.deadline = none →
      (updateComplaint mgr now cid p).2.complaints.map
          (fun c => (c.id, c.deadline)) =
        mgr.complaints.map (fun c => (c.id, c.deadline))) ∧
    (∀ (genId : String) (now : Int) (input : CreateInput),
      ∃ c, (createComplaint mgr genId now input).2.complaints =
        mgr.complaints ++ [c]) ∧
    (∀ cid : String,
      ((deleteComplaint mgr cid).2.complaints).Sublist mgr.complaints) := by
  refine ⟨?_, ?_, ?_⟩
  · intro now cid p hp
    unfold updateComplaint
    cases h : updateFirst p now cid mgr.complaints with
    | none => rfl
    | some cs => exact updateFirst_preserves_deadline hp h
  · intro genId now input
    unfold createComplaint
    cases h : mgr.organizations.find? (fun o => o.id == input.organizationId) <;>
      simp
  · intro cid
    unfold deleteComplaint
    by_cases h :
        mgr.complaints.findIdx (fun c => c.id == cid) < mgr.complaints.length
    · simpa [h] using
        List.eraseIdx_sublist mgr.complaints
          (mgr.complaints.findIdx fun c => c.id == cid)
    · simp [h]

/-- Witness for C2 (amended): a pure status update of the stored complaint
keeps its id and its deadline. -/
theorem deadline_immutable_amended_witness :
    (updateComplaint mgrB 1706745600000 "cmp_1"
        ⟨some "acknowledged", none, none⟩).2.complaints.map
        (fun c => (c.id, c.deadline)) =
      mgrB.complaints.map (fun c => (c.id, c.deadline)) :=
  (deadline_immutable_amended mgrB).1 1706745600000 "cmp_1"
    ⟨some "acknowledged", none, none⟩ rfl

/-- C2 counterexample: update_complaint with a partialFields argument that
carries a deadline key overwrites the stored deadline, so the deadline of a
stored complaint is not invariant under every store operation. -/
theorem updateComplaint_deadline_counterexample :
    mgrB.complaints.map Complaint.deadline = [some 1706659200000] ∧
    (updateComplaint mgrB 1706745600000 "cmp_1"
        ⟨none, some (some 9999), none⟩).2.complaints.map Complaint.deadline =
      [some 9999] ∧
    some (9999 : Int) ≠ some (1706659200000 : Int) := by
  refine ⟨rfl, rfl, by decide⟩

/-- Integer form of the real-valued ceiling used by Math.ceil: at a natural
numerator n and the day constant d, (n + d - 1) / d in natural division is
the ceiling of n / d. -/
lemma natCeilDiv_eq_ceil (n : ℕ) :
    (((n + 86400000 - 1) / 86400000 : ℕ) : Int) = ⌈(n : ℚ) / 86400000⌉ := by
  have hd : (0 : ℚ) < 86400000 := by norm_num
  rw [eq_comm, Int.ceil_eq_iff]
  refine ⟨?_, ?_⟩
  · rw [lt_div_iff₀ hd]
    have h1 : ((((n + 86400000 - 1) / 86400000 : ℕ) : Int) - 1) * 86400000 <
        (n : Int) := by omega
    have h2 : (((((n + 86400000 - 1) / 86400000 : ℕ) : Int) : ℚ) - 1) *
        86400000 < (n : ℚ) := by exact_mod_cast h1
    linarith
  · rw [div_le_iff₀ hd]
    have h3 : (n : Int) ≤
        (((n + 86400000 - 1) / 86400000 : ℕ) : Int) * 86400000 := by omega
    exact_mod_cast h3

/-- C9: for now at or after creation, calculateDaysElapsed is the ceiling of
the (absolute) difference divided by one day of milliseconds, is never
negative, and vanishes exactly at the instant of creation. -/
theorem calculateDaysElapsed_spec (now created : Int) (h : created ≤ now) :
    ((calculateDaysElapsed now created : Int) =
      ⌈((now - created : Int) : ℚ) / 86400000⌉) ∧
    0 ≤ (calculateDaysElapsed now created : Int) ∧
    (calculateDaysElapsed now created = 0 ↔ now = created) := by
  have hcde : calculateDaysElapsed now created =
      ((now - created).natAbs + 86400000 - 1) / 86400000 := by
    norm_num [calculateDaysElapsed]
  have habs : (((now - created).natAbs : Int)) = now - created := by omega
  refine ⟨?_, ?_, ?_⟩
  · have hq := congrArg (fun z : Int => (z : ℚ)) habs
    simp only [Int.cast_natCast] at hq
    rw [hcde, natCeilDiv_eq_ceil, hq]
  · exact Int.natCast_nonneg _
  · rw [hcde]
    omega

/-- Witness for C9 at the example of the spec: creation at
2024-01-01T00:00:00Z evaluated at 2024-02-01T00:00:00Z gives 31 elapsed
days. -/
theorem calculateDaysElapsed_spec_witness :
    ((calculateDaysElapsed 1706745600000 1704067200000 : Int) =
      ⌈((1706745600000 - 1704067200000 : Int) : ℚ) / 86400000⌉) ∧
    0 ≤ (calculateDaysElapsed 1706745600000 1704067200000 : Int) ∧
    (calculateDaysElapsed 1706745600000 1704067200000 = 0 ↔
      (1706745600000 : Int) = 1704067200000) ∧
    calculateDaysElapsed 1706745600000 1704067200000 = 31 :=
  ⟨(calculateDaysElapsed_spec 1706745600000 1704067200000 (by norm_num)).1,
    (calculateDaysElapsed_spec 1706745600000 1704067200000 (by norm_num)).2.1,
    (calculateDaysElapsed_spec 1706745600000 1704067200000 (by norm_num)).2.2,
    by decide⟩

/-- C4 (amended): the admin importer rejects any document whose complaints
or organizations member is not an array-shaped member with the format error
and leaves both collections untouched; the dashboard importer
(ComplaintManager.importData) performs no such validation and instead
replaces each collection whose member is present, reporting success. -/
theorem adminImportData_rejects (mgr : ManagerState) (doc : ImportDoc)
    (genO genC : Nat → String)
    (h : doc.complaints = Member.absent ∨ doc.organizations = Member.absent) :
    adminImportData mgr doc genO genC = (false, mgr) := by
  unfold adminImportData
  cases hc : doc.complaints <;> cases ho : doc.organizations <;> simp_all

/-- Witness for C4 (amended) on a document missing its complaints member. -/
theorem adminImportData_rejects_witness :
    adminImportData mgrB ⟨Member.absent, Member.arr [orgB]⟩
      (fun n => "org_" ++ toString n) (fun n => "complaint_" ++ toString n) =
      (false, mgrB) :=
  adminImportData_rejects mgrB ⟨Member.absent, Member.arr [orgB]⟩
    (fun n => "org_" ++ toString n) (fun n => "complaint_" ++ toString n)
    (Or.inl rfl)

/-- C4 counterexample: the dashboard importer accepts a document with no
complaints member, reports success instead of a format error, and replaces
the organization collection, so the stored collections are not left
unchanged. -/
theorem cmImportData_counterexample :
    (cmImportData mgrB ⟨Member.absent, Member.arr [orgB]⟩).1 = true ∧
    (cmImportData mgrB ⟨Member.absent, Member.arr [orgB]⟩).2.organizations =
      [orgB] ∧
    [orgB] ≠ mgrB.organizations := by
  refine ⟨rfl, rfl, by decide⟩

/-- Merging organizations whose names all differ, case-insensitively, from
every existing name and from each other appends them all, preserving the
content fields. -/
lemma importOrgs_all_new (incoming : List Organization) :
    ∀ (existing : List Organization) (genO : Nat → String) (n : Nat),
      (∀ o ∈ incoming, ∀ e ∈ existing, e.name.toLower ≠ o.name.toLower) →
      incoming.Pairwise (fun a b => a.name.toLower ≠ b.name.toLower) →
      (importOrgs existing incoming genO n).map orgContent =
        existing.map orgContent ++ incoming.map orgContent := by
  induction incoming with
  | nil => intro existing genO n _ _; simp [importOrgs]
  | cons o rest ih =>
    intro existing genO n hcross hpw
    have hany : (existing.any fun e => e.name.toLower == o.name.toLower) =
        false := by
      rw [List.any_eq_false]
      intro e he
      simpa using hcross o (List.mem_cons_self o rest) e he
    rw [List.pairwise_cons] at hpw
    have hcross2 : ∀ o2 ∈ rest, ∀ e ∈ existing ++ [{ o with id := genO n }],
        e.name.toLower ≠ o2.name.toLower := by
      intro o2 ho2 e he
      rcases List.mem_append.mp he with he | he
      · exact hcross o2 (List.mem_cons_of_mem o ho2) e he
      · rcases List.mem_singleton.mp he with rfl
        simpa using hpw.1 o2 ho2
    have hih := ih (existing ++ [{ o with id := genO n }]) genO (n + 1)
      hcross2 hpw.2
    unfold importOrgs
    rw [hany]
    simp only [Bool.false_eq_true, if_false]
    rw [hih]
    simp [orgContent]

/-- Re-assigning ids to a complaint list leaves the content fields alone. -/
lemma mapIdx_id_content (cs : List Complaint) :
    ∀ genC : Nat → String,
      (cs.mapIdx fun i c => { c with id := genC i }).map complaintContent =
        cs.map complaintContent := by
  induction cs with
  | nil => intro genC; rfl
  | cons c rest ih =>
    intro genC
    rw [List.mapIdx_cons]
    simp only [List.map_cons]
    rw [ih fun i => genC (i + 1)]
    rfl

/-- C5: importing the export of a store whose organization names are
pairwise distinct case-insensitively into an empty store succeeds and yields
the same complaint count, the same organization count and the same content
fields (ids may differ, being re-assigned on import). -/
theorem roundTrip_spec (mgr : ManagerState) (genO genC : Nat → String)
    (h : mgr.organizations.Pairwise
      (fun a b => a.name.toLower ≠ b.name.toLower)) :
    (adminImportData ⟨[], []⟩ (adminExportData mgr) genO genC).1 = true ∧
    (adminImportData ⟨[], []⟩ (adminExportData mgr)
        genO genC).2.complaints.length = mgr.complaints.length ∧
    (adminImportData ⟨[], []⟩ (adminExportData mgr)
        genO genC).2.organizations.length = mgr.organizations.length ∧
    (adminImportData ⟨[], []⟩ (adminExportData mgr)
        genO genC).2.complaints.map complaintContent =
      mgr.complaints.map complaintContent ∧
    (adminImportData ⟨[], []⟩ (adminExportData mgr)
        genO genC).2.organizations.map orgContent =
      mgr.organizations.map orgContent := by
  have hcs :
      (adminImportData ⟨[], []⟩ (adminExportData mgr)
        genO genC).2.complaints.map complaintContent =
      mgr.complaints.map complaintContent := by
    simp only [adminImportData, adminExportData, performImport, List.nil_append]
    rw [mapIdx_id_content mgr.complaints genC]
  have hos :
      (adminImportData ⟨[], []⟩ (adminExportData mgr)
        genO genC).2.organizations.map orgContent =
      mgr.organizations.map orgContent := by
    simp only [adminImportData, adminExportData, performImport]
    rw [importOrgs_all_new mgr.organizations [] genO 0
      (by intro o _ e he; cases he) h]
    simp
  refine ⟨rfl, ?_, ?_, hcs, hos⟩
  · have := congrArg List.length hcs
    simpa using this
  · have := congrArg List.length hos
    simpa using this

/-- Witness for C5 on a store with one complaint and one organization. -/
theorem roundTrip_spec_witness :
    (adminImportData ⟨[], []⟩ (adminExportData mgrB)
      (fun n => "org_" ++ toString n) (fun n => "complaint_" ++ toString n)).1 =
      true ∧
    (adminImportData ⟨[], []⟩ (adminExportData mgrB)
      (fun n => "org_" ++ toString n)
      (fun n => "complaint_" ++ toString n)).2.complaints.length =
      mgrB.complaints.length ∧
    (adminImportData ⟨[], []⟩ (adminExportData mgrB)
      (fun n => "org_" ++ toString n)
      (fun n => "complaint_" ++ toString n)).2.organizations.length =
      mgrB.organizations.length ∧
    (adminImportData ⟨[], []⟩ (adminExportData mgrB)
      (fun n => "org_" ++ toString n)
      (fun n => "complaint_" ++ toString n)).2.complaints.map complaintContent =
      mgrB.complaints.map complaintContent ∧
    (adminImportData ⟨[], []⟩ (adminExportData mgrB)
      (fun n => "org_" ++ toString n)
      (fun n => "complaint_" ++ toString n)).2.organizations.map orgContent =
      mgrB.organizations.map orgContent :=
  roundTrip_spec mgrB (fun n => "org_" ++ toString n)
    (fun n => "complaint_" ++ toString n) (by simp [mgrB])

/-- In a list with pairwise distinct lowercased names, two members with the
same lowercased name are the same member. -/
lemma mem_name_unique {l : List Organization}
    (hpw : l.Pairwise (fun a b => a.name.toLower ≠ b.name.toLower))
    {e o : Organization} (he : e ∈ l) (ho : o ∈ l)
    (h : e.name.toLower = o.name.toLower) : e = o := by
  induction l with
  | nil => cases he
  | cons x xs ih =>
    rw [List.pairwise_cons] at hpw
    rcases List.mem_cons.mp he with he1 | he1 <;>
      rcases List.mem_cons.mp ho with ho1 | ho1
    · rw [he1, ho1]
    · exact absurd h (he1 ▸ hpw.1 o ho1)
    · exact absurd h.symm (ho1 ▸ hpw.1 e he1)
    · exact ih hpw.2 he1 ho1

/-- C8: a duplicate name under a different id is rejected with a validation
error and the collection is unchanged; the uniqueness check excludes the
record being edited, so an edit that keeps its own name succeeds; and a
successful save preserves pairwise case-insensitive name distinctness, so
two organizations with equal names never coexist. -/
theorem saveOrganization_name_unique (orgs : List Organization)
    (data : Organization) :
    ((∃ e ∈ orgs, e.name.toLower = data.name.toLower ∧ e.id ≠ data.id) →
      (saveOrganization orgs data).1.isSome ∧
      (saveOrganization orgs data).2 = orgs) ∧
    (∀ o ∈ orgs, data.id = o.id → data.name = o.name →
      data.responseTimedays < data.escalationTimedays →
      orgs.Pairwise (fun a b => a.name.toLower ≠ b.name.toLower) →
      (saveOrganization orgs data).1 = none) ∧
    (orgs.Pairwise (fun a b => a.name.toLower ≠ b.name.toLower) →
      orgs.Pairwise (fun a b => a.id ≠ b.id) →
      (saveOrganization orgs data).1 = none →
      ((saveOrganization orgs data).2).Pairwise
        (fun a b => a.name.toLower ≠ b.name.toLower)) := by
  refine ⟨?_, ?_, ?_⟩
  · rintro ⟨e, he, hname, hid⟩
    unfold saveOrganization
    by_cases hesc : data.escalationTimedays ≤ data.responseTimedays
    · rw [if_pos hesc]
      exact ⟨rfl, rfl⟩
    · rw [if_neg hesc]
      have hfind : (orgs.find? fun o =>
          o.name.toLower == data.name.toLower && o.id != data.id).isSome := by
        rw [List.find?_isSome]
        exact ⟨e, he, by simp [hname, hid]⟩
      cases hf : orgs.find? fun o =>
          o.name.toLower == data.name.toLower && o.id != data.id with
      | none => rw [hf] at hfind; cases hfind
      | some x => exact ⟨rfl, rfl⟩
  · intro o ho hid hname hesc hpw
    unfold saveOrganization
    rw [if_neg (by omega)]
    have hf : (orgs.find? fun e =>
        e.name.toLower == data.name.toLower && e.id != data.id) = none := by
      rw [List.find?_eq_none]
      intro e he
      simp only [Bool.and_eq_true, beq_iff_eq, bne_iff_ne, ne_eq, not_and,
        Decidable.not_not]
      intro hename
      have : e = o := mem_name_unique hpw he ho (by rw [hename, hname])
      rw [this, ← hid]
    rw [hf]
    by_cases hidx : orgs.findIdx (fun e => e.id == data.id) < orgs.length <;>
      simp [hidx]
  · intro hpw hids hok
    unfold saveOrganization at hok ⊢
    by_cases hesc : data.escalationTimedays ≤ data.responseTimedays
    · rw [if_pos hesc] at hok; cases hok
    · rw [if_neg hesc] at hok ⊢
      cases hf : orgs.find? fun e =>
          e.name.toLower == data.name.toLower && e.id != data.id with
      | some x => rw [hf] at hok; cases hok
      | none =>
        have hnodup : ∀ e ∈ orgs,
            e.name.toLower = data.name.toLower → e.id = data.id := by
          intro e he hename
          have := List.find?_eq_none.mp hf e he
          simp only [Bool.and_eq_true, beq_iff_eq, bne_iff_ne, ne_eq, not_and,
            Decidable.not_not] at this
          exact this hename
        by_cases hidx : orgs.findIdx (fun e => e.id == data.id) < orgs.length
        · simp only [hidx, if_true]
          have hpid : orgs[orgs.findIdx (fun e => e.id == data.id)].id =
              data.id := by
            have := @List.findIdx_getElem _ (fun e => e.id == data.id)
              orgs hidx
            simpa using this
          rw [List.pairwise_iff_getElem] at hpw hids ⊢
          intro i j hi hj hij
          rw [List.length_set] at hi hj
          by_cases hji : j = orgs.findIdx (fun e => e.id == data.id)
          · rw [List.getElem_set, List.getElem_set, if_neg (by omega),
              if_pos hji.symm]
            intro heq
            have hidne : orgs[i].id ≠ orgs[j].id := hids i j hi hj hij
            have hieq : orgs[i].id = data.id :=
              hnodup orgs[i] (List.getElem_mem hi) heq
            have hjeq : orgs[j].id = data.id := by
              subst hji
              exact hpid
            exact hidne (hieq.trans hjeq.symm)
          · by_cases hii : i = orgs.findIdx (fun e => e.id == data.id)
            · rw [List.getElem_set, List.getElem_set, if_pos hii.symm,
                if_neg (by omega)]
              intro heq
              have hidne : orgs[i].id ≠ orgs[j].id := hids i j hi hj hij
              have hjeq : orgs[j].id = data.id :=
                hnodup orgs[j] (List.getElem_mem hj) heq.symm
              have hieq : orgs[i].id = data.id := by
                subst hii
                exact hpid
              exact hidne (hieq.trans hjeq.symm)
            · rw [List.getElem_set, List.getElem_set, if_neg (by omega),
                if_neg (by omega)]
              exact hpw i j hi hj hij
        · simp only [hidx, if_false]
          rw [List.pairwise_append]
          refine ⟨hpw, by simp, ?_⟩
          intro e he d hd
          rw [List.mem_singleton] at hd
          subst hd
          intro hename
          have hideq := hnodup e he hename
          have hlen : orgs.findIdx (fun x => x.id == d.id) = orgs.length := by
            have := @List.findIdx_le_length _ (fun x => x.id == d.id) orgs
            omega
          have hall := List.findIdx_eq_length.mp hlen
          have := hall e he
          simp [hideq] at this

/-- Witness for C8: adding a case-insensitive duplicate of the stored
organization under another id fails and leaves the collection untouched,
while an edit of the stored organization that keeps its own name succeeds
and keeps the names pairwise distinct. -/
theorem saveOrganization_name_unique_witness :
    ((saveOrganization [orgA] orgDup).1.isSome ∧
      (saveOrganization [orgA] orgDup).2 = [orgA]) ∧
    (saveOrganization [orgA] orgEdit).1 = none ∧
    ((saveOrganization [orgA] orgEdit).2).Pairwise
      (fun a b => a.name.toLower ≠ b.name.toLower) := by
  have ha := (saveOrganization_name_unique [orgA] orgDup).1
    ⟨orgA, by simp, rfl, by decide⟩
  have hb := (saveOrganization_name_unique [orgA] orgEdit).2.1 orgA
    (by simp) rfl rfl (by decide) (by simp)
  have hc := (saveOrganization_name_unique [orgA] orgEdit).2.2
    (by simp) (by simp) hb
  exact ⟨ha, hb, hc⟩

/-- Unfolding equation connecting the comparator to its value function. -/
lemma compareComplaints_eq_cmpVal (now : Int) (a b : Complaint) :
    compareComplaints now a b =
      cmpVal (isComplaintOverdue now a) (isComplaintOverdue now b)
        (statusPriority a.status) (statusPriority b.status)
        a.createdDate b.createdDate := rfl

/-- Swapping the arguments of the comparator value negates it. -/
lemma cmpVal_neg (oa ob : Bool) (pa pb da db : Int) :
    cmpVal ob oa pb pa db da = -cmpVal oa ob pa pb da db := by
  unfold cmpVal
  cases oa <;> cases ob <;> simp <;> split_ifs <;> omega

/-- The non-positive half of the comparator value is transitive. -/
lemma cmpVal_trans (oa ob oc : Bool) (pa pb pc da db dc : Int) :
    cmpVal oa ob pa pb da db ≤ 0 → cmpVal ob oc pb pc db dc ≤ 0 →
      cmpVal oa oc pa pc da dc ≤ 0 := by
  unfold cmpVal
  cases oa <;> cases ob <;> cases oc <;> simp <;> split_ifs <;> omega

/-- A non-positive comparator value orders the pair: first overdue flag,
then priority descending, then creation instant descending. -/
lemma cmpVal_le_imp (oa ob : Bool) (pa pb da db : Int) :
    cmpVal oa ob pa pb da db ≤ 0 →
      (oa = true ∧ ob = false) ∨
        (oa = ob ∧ (pb < pa ∨ (pa = pb ∧ db ≤ da))) := by
  unfold cmpVal
  cases oa <;> cases ob <;> simp <;> split_ifs <;> omega

/-- C3: sortForDisplay returns a permutation of its input on which every
pair in order satisfies the display ordering: overdue before non-overdue
regardless of status, then status priority descending with the fixed
ranking, then createdDate descending. -/
theorem sortForDisplay_spec (now : Int) (l : List Complaint) :
    (sortForDisplay now l).Perm l ∧
    List.Pairwise (displayOrdered now) (sortForDisplay now l) := by
  constructor
  · exact List.mergeSort_perm l _
  · have hs := @List.sorted_mergeSort Complaint
      (fun a b : Complaint => decide (compareComplaints now a b ≤ 0))
      (fun a b c hab hbc => by
        simp only [decide_eq_true_eq, compareComplaints_eq_cmpVal] at hab hbc ⊢
        exact cmpVal_trans _ _ _ _ _ _ _ _ _ hab hbc)
      (fun a b => by
        simp only [Bool.or_eq_true, decide_eq_true_eq,
          compareComplaints_eq_cmpVal]
        have := cmpVal_neg (isComplaintOverdue now a) (isComplaintOverdue now b)
          (statusPriority a.status) (statusPriority b.status)
          a.createdDate b.createdDate
        omega)
      l
    exact hs.imp fun {a b} h => by
      simp only [decide_eq_true_eq, compareComplaints_eq_cmpVal] at h
      exact cmpVal_le_imp _ _ _ _ _ _ h

end AccessWeb
